import Mathlib

/-!
Shallow embedding of the har-api-reverse-engineer backend pipeline
(src/backend/utils/har_processor.py, src/backend/utils/llm_service.py,
src/backend/routes/analyze.py, src/backend/routes/upload.py) together with
theorems checking the natural-language specification against it.

Modelling conventions:
* Python strings are Lean `String`s (lists of characters); `str.lower`,
  `str.upper`, `str.strip`, slicing and the concrete regular expressions of
  the source are implemented character by character below.
* Python's `json.loads` is an external library routine; it is modelled as an
  explicit parameter `loads : String → Option Json` (`none` = JSONDecodeError).
  Concrete instantiations in witnesses/counterexamples give its value on the
  inputs actually reached, matching CPython behaviour there.
* JSON numbers are modelled as integers (no claim depends on float payloads).
* Fallible code returns `Except`; the distinct Python exception classes that
  the claims distinguish are separate constructors.
-/

/- JSON values as produced by `json.loads` (numbers restricted to integers,
which is all the claims exercise). Object key order models CPython dict
insertion order. Arrays and objects carry their own list types (a mutual
rather than nested inductive) so that recursion over them stays structural
and kernel-reducible. -/
mutual
/-- A decoded JSON value. -/
inductive Json where
  | null : Json
  | bool : Bool → Json
  | num : Int → Json
  | str : String → Json
  | arr : JsonList → Json
  | obj : JsonObj → Json
inductive JsonList where
  | nil : JsonList
  | cons : Json → JsonList → JsonList
inductive JsonObj where
  | nil : JsonObj
  | cons : String → Json → JsonObj → JsonObj
end

/-- View a JSON array's elements as a Lean list. -/
def JsonList.toList : JsonList → List Json
  | .nil => []
  | .cons x xs => x :: xs.toList

/-- Build a JSON array value from a Lean list. -/
def JsonList.ofList : List Json → JsonList
  | [] => .nil
  | x :: xs => .cons x (JsonList.ofList xs)

/-- View a JSON object's key-value pairs as a Lean list. -/
def JsonObj.toList : JsonObj → List (String × Json)
  | .nil => []
  | .cons k v kvs => (k, v) :: kvs.toList

/-- Build a JSON object value from a Lean list of pairs. -/
def JsonObj.ofList : List (String × Json) → JsonObj
  | [] => .nil
  | (k, v) :: kvs => .cons k v (JsonObj.ofList kvs)

/-- Left and right curly brace characters. -/
def lbrace : Char := Char.ofNat 123

def rbrace : Char := Char.ofNat 125

/-- Lowercase a string character by character, as Python `str.lower` does on
ASCII data. -/
def lowerStr (s : String) : String := String.mk (s.data.map Char.toLower)

/-- Uppercase a string character by character, as Python `str.upper` does on
ASCII data. -/
def upperStr (s : String) : String := String.mk (s.data.map Char.toUpper)

/-- Boolean test that `n` is a prefix of `h` (character lists). -/
def listPre (n h : List Char) : Bool :=
  match n, h with
  | [], _ => true
  | _ :: _, [] => false
  | a :: n1, b :: h1 => a == b && listPre n1 h1

/-- Boolean substring test: does `n` occur contiguously inside `h`?
Models Python's `n in h` on strings. -/
def listSub (n h : List Char) : Bool :=
  match h with
  | [] => n.isEmpty
  | _ :: t => listPre n h || listSub n t

/-- Python `needle in hay` for strings. -/
def strContains (hay needle : String) : Bool := listSub needle.data hay.data

/-- Python `hay.endswith(suffix)`. -/
def endsStr (hay suffix : String) : Bool :=
  listPre suffix.data.reverse hay.data.reverse

/-! ## Concrete regular expressions of har_processor.py and llm_service.py -/

/-- Match of the tail of the pattern `/data/[^/]+/[^/?&]+` starting right
after an occurrence of `/data/`: a nonempty run of non-`/` characters, a `/`,
then at least one character outside `/?&`. -/
def dataTailMatch (cs : List Char) : Bool :=
  let seg := cs.takeWhile (fun c => c ≠ '/')
  let rest := cs.dropWhile (fun c => c ≠ '/')
  if seg.isEmpty then false
  else
    match rest with
    | '/' :: c :: _ => c ≠ '/' && c ≠ '?' && c ≠ '&'
    | _ => false

/-- Python `re.search(r'/data/[^/]+/[^/?&]+', url)` as a Boolean: scan every
suffix for `/data/` followed by a matching tail. -/
def dataPathSearch : List Char → Bool
  | [] => false
  | c :: rest =>
    (listPre "/data/".data (c :: rest) && dataTailMatch ((c :: rest).drop 6))
      || dataPathSearch rest

/-- Match at one position of `r'/[^/]+/[^/?&]+$'`: a `/`, a nonempty run of
non-`/` characters, a `/`, then a nonempty tail reaching the end of the string
with no `/`, `?` or `&`. -/
def entityMatchAt (cs : List Char) : Bool :=
  match cs with
  | '/' :: rest =>
    let seg := rest.takeWhile (fun c => c ≠ '/')
    let r2 := rest.dropWhile (fun c => c ≠ '/')
    if seg.isEmpty then false
    else
      match r2 with
      | '/' :: tail =>
        !tail.isEmpty && tail.all (fun c => c ≠ '/' && c ≠ '?' && c ≠ '&')
      | _ => false
  | _ => false

/-- Python `re.search(r'/[^/]+/[^/?&]+$', url)` as a Boolean. -/
def entityPathSearch : List Char → Bool
  | [] => false
  | c :: rest => entityMatchAt (c :: rest) || entityPathSearch rest

/-- Characters allowed by the class `[0-9.-]` of the coordinate pattern. -/
def coordChar (c : Char) : Bool := c.isDigit || c == '.' || c == '-'

/-- Match at one position of `r'\/[0-9.-]+\/[0-9.-]+\/'`. -/
def coordMatchAt (cs : List Char) : Bool :=
  match cs with
  | '/' :: rest =>
    let a := rest.takeWhile coordChar
    let r1 := rest.dropWhile coordChar
    if a.isEmpty then false
    else
      match r1 with
      | '/' :: rest2 =>
        let b := rest2.takeWhile coordChar
        let r2 := rest2.dropWhile coordChar
        if b.isEmpty then false
        else
          match r2 with
          | '/' :: _ => true
          | _ => false
      | _ => false
  | _ => false

/-- Python `re.search(r'\/[0-9.-]+\/[0-9.-]+\/', url)` as a Boolean. -/
def coordSearch : List Char → Bool
  | [] => false
  | c :: rest => coordMatchAt (c :: rest) || coordSearch rest

/-- Characters allowed by the class `[a-z-]` of the city pattern. -/
def cityChar (c : Char) : Bool := ('a' ≤ c && c ≤ 'z') || c == '-'

/-- Match at one position of `r'\/[a-z-]+\/'`. -/
def cityMatchAt (cs : List Char) : Bool :=
  match cs with
  | '/' :: rest =>
    let a := rest.takeWhile cityChar
    let r1 := rest.dropWhile cityChar
    if a.isEmpty then false
    else
      match r1 with
      | '/' :: _ => true
      | _ => false
  | _ => false

/-- Python `re.search(r'\/[a-z-]+\/', url)` as a Boolean. -/
def citySearch : List Char → Bool
  | [] => false
  | c :: rest => cityMatchAt (c :: rest) || citySearch rest

/-! ## Python dict helpers -/

/-- Update-or-append for association lists: models assignment `d[k] = v` on a
CPython dict (first-insertion position, last value). -/
def dictSet : List (String × String) → String → String → List (String × String)
  | [], k, v => [(k, v)]
  | (a, b) :: t, k, v =>
    if a == k then (a, v) :: t else (a, b) :: dictSet t k v

/-- Build a dict from a list of pairs, as the comprehensions
`{h['name']: h['value'] for h in headers}` do. -/
def pyDict (l : List (String × String)) : List (String × String) :=
  l.foldl (fun acc kv => dictSet acc kv.1 kv.2) []

/-- Fuel-indexed splitting worker (fuel, instantiated with one more than the
remaining length, only discharges termination: every step consumes at least
one character). `acc` holds the reversed current piece. -/
def pySplitF (sep : List Char) : Nat → List Char → List Char → List (List Char)
  | 0, acc, _ => [acc.reverse]
  | fuel + 1, acc, cs =>
    match cs with
    | [] => [acc.reverse]
    | c :: rest =>
      if listPre sep (c :: rest) then
        acc.reverse :: pySplitF sep fuel [] ((c :: rest).drop sep.length)
      else pySplitF sep fuel (c :: acc) rest

/-- Python `s.split(sep)` for a non-empty separator: split on non-overlapping
occurrences, left to right, keeping empty pieces. -/
def pySplit (s sep : String) : List String :=
  (pySplitF sep.data (s.data.length + 1) [] s.data).map String.mk

/-- Python `s.strip()`: drop leading and trailing whitespace. -/
def pyStrip (s : String) : String :=
  String.mk
    (((s.data.dropWhile Char.isWhitespace).reverse.dropWhile
        Char.isWhitespace).reverse)

/-- Lookup in a JSON object (CPython dicts have unique keys, so first match
suffices). -/
def jLookup (kvs : JsonObj) (k : String) : Option Json :=
  ((kvs.toList).find? (fun kv => kv.1 == k)).map (fun kv => kv.2)

/-! ## Data model: HAR entries and extracted requests (har_processor.py) -/

/-- The `postData` object of a HAR request. `none` fields model absent keys. -/
structure PostData where
  mimeType : Option String
  text : Option String
  params : Option (List (String × String))

/-- A HAR request object. Header and query-string objects are modelled as
name/value pairs. -/
structure RawRequest where
  method : Option String
  url : Option String
  headers : List (String × String)
  queryString : List (String × String)
  postData : Option PostData

/-- A HAR response object. `contentText` is `some t` exactly when the response
has a `content` object with a `text` key. -/
structure RawResponse where
  status : Option Int
  headers : List (String × String)
  contentText : Option String

/-- One entry of `log.entries`. -/
structure RawEntry where
  request : RawRequest
  response : RawResponse

/-- The `body` sub-dict built by `process_har_file` for requests with
`postData`. `parsed_json` is present only when the JSON mime-type branch parsed
successfully. -/
structure ReqBody where
  mime_type : String
  text : String
  params : List (String × String)
  parsed_json : Option Json
  format : String

/-- One extracted API request dict as built by `process_har_file`
(the spec's CanonicalRequest). -/
structure ApiRequest where
  method : Option String
  url : Option String
  headers : List (String × String)
  query_params : List (String × String)
  response_status : Option Int
  response_content_type : String
  relevance_score : Int
  body : Option ReqBody
  response_body : Option String
  response_parsed : Option Json

/-- First response header whose lowercased name is `content-type`
(har_processor.py lines 29-33). -/
def findContentType (hs : List (String × String)) : Option String :=
  (hs.find? (fun h => lowerStr h.1 == "content-type")).map (fun h => h.2)

/-- Truncation of large response bodies (har_processor.py lines 152-154). -/
def truncate2000 (t : String) : String :=
  if t.length > 2000 then String.mk (t.data.take 2000) ++ "... [truncated]" else t

/-- Build the `body` sub-dict from `postData` (har_processor.py lines 121-147).
Note line 140 re-reads the text with default `"{}"`, unlike line 126. -/
def buildBody (loads : String → Option Json) (pd : PostData) : ReqBody :=
  let mt := pd.mimeType.getD ""
  let bodyText := pd.text.getD ""
  let bodyParams := pd.params.getD []
  if strContains (lowerStr mt) "application/json" then
    match loads (pd.text.getD "\x7b\x7d") with
    | some js =>
      { mime_type := mt, text := bodyText, params := bodyParams,
        parsed_json := some js, format := "json" }
    | none =>
      { mime_type := mt, text := bodyText, params := bodyParams,
        parsed_json := none, format := "text" }
  else if strContains (lowerStr mt) "form" then
    { mime_type := mt, text := bodyText, params := bodyParams,
      parsed_json := none, format := "form" }
  else
    { mime_type := mt, text := bodyText, params := bodyParams,
      parsed_json := none, format := "text" }

/-- The Entry Classifier: har_processor.py lines 24-164 for a single entry.
Returns `none` when the entry is skipped, otherwise the built request dict. -/
def classifyEntry (loads : String → Option Json) (e : RawEntry) : Option ApiRequest :=
  match findContentType e.response.headers with
  | none => none
  | some content_type =>
    -- Python `if not content_type: continue` also skips an empty string value
    if content_type = "" then none else
    let url := e.request.url.getD ""
    let ctLower := lowerStr content_type
    let is_api_endpoint :=
      strContains url "/api/" || strContains url "api." ||
      strContains url "/graphql" || strContains url "/v1/" ||
      strContains url "/v2/" || strContains url "/rest/" ||
      strContains url ".json"
    let is_data_resource := dataPathSearch url.data
    let is_entity_resource :=
      entityPathSearch url.data &&
      !(endsStr url ".js" || endsStr url ".css" || endsStr url ".jpg" ||
        endsStr url ".png" || endsStr url ".gif")
    let anyFlag := is_api_endpoint || is_data_resource || is_entity_resource
    if strContains ctLower "text/html" && !anyFlag then none
    else if !anyFlag &&
        (strContains ctLower "image/" || strContains ctLower "font/" ||
         strContains ctLower "text/css") then none
    else
      let is_json := strContains ctLower "json"
      let is_javascript := strContains ctLower "javascript" || endsStr url ".js"
      let is_data := strContains ctLower "application/octet-stream"
      let methodStr := e.request.method.getD ""
      let is_xhr := methodStr ≠ "GET" || is_json || is_data || is_api_endpoint
      let relevance_score : Int :=
        (if is_data_resource then 15 else 0) +
        (if is_entity_resource then 12 else 0) +
        (if strContains url "/api/" || strContains url ".api." then 10 else 0) +
        (if strContains url "/data/" || strContains url "/common/" then 8 else 0) +
        (if is_json then 5 else 0) +
        (if is_javascript then -5 else 0) +
        (if methodStr ≠ "GET" then 3 else 0)
      if is_xhr || is_data_resource || is_entity_resource || strContains url "/data/" then
        let response_body := e.response.contentText.map truncate2000
        some
          { method := e.request.method,
            url := e.request.url,
            headers := pyDict e.request.headers,
            query_params := pyDict e.request.queryString,
            response_status := e.response.status,
            response_content_type := content_type,
            relevance_score := relevance_score,
            body := e.request.postData.map (buildBody loads),
            response_body := response_body,
            response_parsed :=
              match e.response.contentText with
              | none => none
              | some t =>
                if strContains ctLower "application/json" then loads (truncate2000 t)
                else none }
      else none

/-- Stable descending insertion used to model Python's stable
`sorted(key=relevance_score, reverse=True)`: the inserted element goes before
the first element of not-greater score, so earlier elements stay before later
elements of equal score. -/
def insertDesc (x : ApiRequest) : List ApiRequest → List ApiRequest
  | [] => [x]
  | y :: ys =>
    if y.relevance_score ≤ x.relevance_score then x :: y :: ys
    else y :: insertDesc x ys

/-- Stable sort by `relevance_score` descending (har_processor.py line 167). -/
def sortDesc : List ApiRequest → List ApiRequest
  | [] => []
  | x :: xs => insertDesc x (sortDesc xs)

/-- The Candidate Extractor applied to a list of parsed entries:
classify each entry in order, drop rejections, sort by score descending. -/
def extract_entries (loads : String → Option Json) (entries : List RawEntry) :
    List ApiRequest :=
  sortDesc (entries.filterMap (classifyEntry loads))

/-! ## Log ingestion boundary (har_processor.py lines 14-19, upload.py) -/

/-- Outcome of decoding the uploaded byte stream: UTF-8 decoding failed,
`json.loads` failed, or a parsed JSON document. -/
inductive HarInput where
  | badUtf8 : HarInput
  | badJson : HarInput
  | doc : Json → HarInput

/-- Python exception classes distinguished by the ingestion claims.
`malformedInput` is `json.JSONDecodeError`, the class upload.py maps to the
400 "Invalid HAR file format" response; the others fall into the generic
500 handler. -/
inductive IngestError where
  | malformedInput : IngestError
  | unicodeDecodeError : IngestError
  | attributeError : IngestError
  | typeError : IngestError
deriving DecidableEq

/-- Python `x.get(k, default)`: raises AttributeError unless `x` is a dict. -/
def pyGetD (j : Json) (k : String) (d : Json) : Except IngestError Json :=
  match j with
  | .obj kvs => .ok ((jLookup kvs k).getD d)
  | _ => .error .attributeError

/-- Read an optional string field of an entry sub-object; a present value of
another type is a `typeError` (the iteration code would fail on it). -/
def jStrField (kvs : JsonObj) (k : String) :
    Except IngestError (Option String) :=
  match jLookup kvs k with
  | none => .ok none
  | some (.str s) => .ok (some s)
  | some _ => .error .typeError

/-- Read an optional integer field. -/
def jIntField (kvs : JsonObj) (k : String) :
    Except IngestError (Option Int) :=
  match jLookup kvs k with
  | none => .ok none
  | some (.num n) => .ok (some n)
  | some _ => .error .typeError

/-- Decode a list of HAR name/value objects (headers, queryString, params).
Missing names/values default to the empty string as the `.get`-based readers
do; mistyped elements are collapsed into `typeError`. -/
def decodePairs (j : Json) : Except IngestError (List (String × String)) :=
  match j with
  | .arr xs =>
    xs.toList.mapM (fun x =>
      match x with
      | .obj kvs => do
        let n ← jStrField kvs "name"
        let v ← jStrField kvs "value"
        pure (n.getD "", v.getD "")
      | _ => .error .typeError)
  | _ => .error .typeError

/-- Decode one entry of `log.entries` into the structured form consumed by the
classifier. Entry-internal type errors are collapsed into `typeError`: the
claims only exercise well-formed entries or top-level malformation. -/
def decodeEntry (j : Json) : Except IngestError RawEntry :=
  match j with
  | .obj ekvs => do
    let requestJ := (jLookup ekvs "request").getD (.obj .nil)
    let responseJ := (jLookup ekvs "response").getD (.obj .nil)
    match requestJ, responseJ with
    | .obj rk, .obj sk => do
      let method ← jStrField rk "method"
      let url ← jStrField rk "url"
      let headers ← decodePairs ((jLookup rk "headers").getD (.arr .nil))
      let queryString ← decodePairs ((jLookup rk "queryString").getD (.arr .nil))
      let postData ←
        match jLookup rk "postData" with
        | none => pure none
        | some (.obj pk) => do
          let mt ← jStrField pk "mimeType"
          let tx ← jStrField pk "text"
          let ps ←
            match jLookup pk "params" with
            | none => pure none
            | some pj => (decodePairs pj).map some
          pure (some { mimeType := mt, text := tx, params := ps })
        | some _ => .error .attributeError
      let status ← jIntField sk "status"
      let sheaders ← decodePairs ((jLookup sk "headers").getD (.arr .nil))
      let contentText ←
        match jLookup sk "content" with
        | none => pure none
        | some (.obj ck) => jStrField ck "text"
        | some _ => .error .typeError
      pure
        { request :=
            { method := method, url := url, headers := headers,
              queryString := queryString, postData := postData },
          response :=
            { status := status, headers := sheaders,
              contentText := contentText } }
    | _, _ => .error .attributeError
  | _ => .error .attributeError

/-- Iterate `log.entries`: Python `for entry in entries` accepts any iterable.
A non-empty string or dict yields non-dict elements whose `.get` raises
AttributeError; numbers and booleans are not iterable (TypeError). -/
def decodeEntries (j : Json) : Except IngestError (List RawEntry) :=
  match j with
  | .arr xs => xs.toList.mapM decodeEntry
  | .str s => if s.data.isEmpty then .ok [] else .error .attributeError
  | .obj kvs => if kvs.toList.isEmpty then .ok [] else .error .attributeError
  | _ => .error .typeError

/-- The whole of `process_har_file` (har_processor.py lines 5-169), from the
decoded byte stream to the sorted candidate list. -/
def process_har_file (loads : String → Option Json) (inp : HarInput) :
    Except IngestError (List ApiRequest) :=
  match inp with
  | .badUtf8 => .error .unicodeDecodeError
  | .badJson => .error .malformedInput
  | .doc har_data => do
    let logJ ← pyGetD har_data "log" (.obj .nil)
    let entriesJ ← pyGetD logJ "entries" (.arr .nil)
    let entries ← decodeEntries entriesJ
    pure (extract_entries loads entries)

/-! ## Token Budgeter (llm_service.py, optimize_for_tokens) -/

/-- The `body` sub-dict of an optimized request (llm_service.py lines 96-114).
`params` is present only when the source body's params list is non-empty. -/
structure OptBody where
  mime_type : String
  format : String
  text : String
  parsed_json : Option Json
  params : Option (List (String × String))

/-- One optimized request dict (llm_service.py lines 77-165). -/
structure OptimizedRequest where
  method : Option String
  url : Option String
  response_status : Option Int
  response_content_type : String
  headers : List (String × String)
  query_params : Option (List (String × String))
  body : Option OptBody
  response_body : Option String
  response_parsed : Option Json

/-- The three pre-filtering buckets of optimize_for_tokens. -/
inductive Bucket where
  | dataApi : Bucket
  | possibleApi : Bucket
  | staticRes : Bucket
deriving DecidableEq

/-- Bucket assignment for one request (llm_service.py lines 34-68). -/
def bucketOf (r : ApiRequest) : Bucket :=
  let url := lowerStr (r.url.getD "")
  let content_type := lowerStr r.response_content_type
  let method := upperStr (r.method.getD "")
  if endsStr url ".js" || strContains content_type "javascript" then .staticRes
  else
    let has_api_indicators :=
      strContains url "/api/" || strContains url ".api." ||
      strContains url "/v1/" || strContains url "/v2/" ||
      strContains url "/data/" || strContains url "/common/"
    let is_data_response :=
      strContains content_type "json" || strContains content_type "application/json"
    let is_action_method := method ≠ "GET"
    if has_api_indicators && is_data_response then .dataApi
    else if is_data_response || is_action_method || has_api_indicators then .possibleApi
    else .staticRes

/-- The three accumulating lists of the pre-filtering loop
(llm_service.py lines 29-68), in input order within each bucket. -/
def bucketLoop : List ApiRequest →
    List ApiRequest × List ApiRequest × List ApiRequest
  | [] => ([], [], [])
  | r :: rs =>
    let rest := bucketLoop rs
    match bucketOf r with
    | .dataApi => (r :: rest.1, rest.2.1, rest.2.2)
    | .possibleApi => (rest.1, r :: rest.2.1, rest.2.2)
    | .staticRes => (rest.1, rest.2.1, r :: rest.2.2)

/-- Header allow-list filter (llm_service.py lines 86-90). -/
def keepHeader (kv : String × String) : Bool :=
  let k := lowerStr kv.1
  (["content-type", "authorization", "accept", "user-agent", "origin",
    "referer", "x-api-key"].contains k) ||
  strContains k "auth" || strContains k "token" || strContains k "key"

/- Compact JSON serialization, modelling `json.dumps(obj)` with its default
separators (string escaping elided: no claim feeds strings needing escapes
through this path). -/
mutual
/-- Python `json.dumps(obj)` with the default `', '` and `': '` separators. -/
def dumps : Json → String
  | .null => "null"
  | .bool true => "true"
  | .bool false => "false"
  | .num n => toString n
  | .str s => "\"" ++ s ++ "\""
  | .arr xs => "[" ++ String.intercalate ", " (dumpsList xs) ++ "]"
  | .obj kvs =>
    String.mk [lbrace] ++ String.intercalate ", " (dumpsObj kvs) ++
      String.mk [rbrace]
def dumpsList : JsonList → List String
  | .nil => []
  | .cons x xs => dumps x :: dumpsList xs
def dumpsObj : JsonObj → List String
  | .nil => []
  | .cons k v kvs => ("\"" ++ k ++ "\": " ++ dumps v) :: dumpsObj kvs
end

/-- Priority-key reduction of a large JSON object
(llm_service.py lines 132-148). -/
def priorityTrunc (kvs : JsonObj) : List (String × Json) :=
  let priority_keys :=
    ["id", "name", "title", "description", "status", "metadata", "count", "total"]
  let picked :=
    priority_keys.filterMap (fun k => (jLookup kvs k).map (fun v => (k, v)))
  let others := kvs.toList.filter (fun kv => !(picked.any (fun p => p.1 == kv.1)))
  picked ++ others.take 7

/-- Structure-aware reduction of a parsed JSON response body
(llm_service.py lines 125-151). -/
def jsonTrunc (j : Json) : Json :=
  let j1 : Json :=
    match j with
    | .arr xs =>
      if xs.toList.length > 3 then .arr (JsonList.ofList (xs.toList.take 3))
      else .arr xs
    | _ => j
  match j1 with
  | .obj kvs =>
    if kvs.toList.length > 10 then .obj (JsonObj.ofList (priorityTrunc kvs))
    else .obj kvs
  | _ => j1

/-- Hard 500-character truncation with marker (llm_service.py lines 154-157). -/
def truncate500 (t : String) : String :=
  if t.length > 500 then String.mk (t.data.take 500) ++ "... [truncated]" else t

/-- Response-body reduction (llm_service.py lines 117-159). -/
def truncResponse (loads : String → Option Json) (content_type rb : String) : String :=
  if strContains (lowerStr content_type) "json" then
    match loads rb with
    | some j => dumps (jsonTrunc j)
    | none => truncate500 rb
  else truncate500 rb

/-- Field reduction for one request (llm_service.py lines 76-165). -/
def reduceRequest (loads : String → Option Json) (r : ApiRequest) : OptimizedRequest :=
  { method := r.method,
    url := r.url,
    response_status := r.response_status,
    response_content_type := r.response_content_type,
    headers := r.headers.filter keepHeader,
    query_params := if r.query_params.isEmpty then none else some r.query_params,
    body := r.body.map (fun b =>
      { mime_type := b.mime_type, format := b.format, text := b.text,
        parsed_json := b.parsed_json,
        params := if b.params.isEmpty then none else some b.params }),
    response_body := r.response_body.map (truncResponse loads r.response_content_type),
    response_parsed :=
      match r.response_body with
      | some _ => r.response_parsed
      | none => none }

/-- The Token Budgeter: bucket re-ranking followed by per-request field
reduction (llm_service.py lines 14-167). -/
def optimize_for_tokens (loads : String → Option Json) (api_requests : List ApiRequest) :
    List OptimizedRequest :=
  let b := bucketLoop api_requests
  (b.1 ++ b.2.1 ++ b.2.2).map (reduceRequest loads)

/-! ## Reasoning boundary outcomes -/

/-- Result of one call to the external reasoning service: the request raised
an exception, or returned a free-form text. -/
inductive ReasonOutcome where
  | failure : ReasonOutcome
  | text : String → ReasonOutcome

/-! ## Relevance Gate (llm_service.py, verify_har_relevance) -/

/-- The Relevance Gate (llm_service.py lines 169-286). Returns the decision
together with a flag recording whether the external reasoning boundary was
consulted. An exception from the boundary defaults to `true` (line 286). -/
def verify_har_relevance (api_requests : List ApiRequest) (description : String)
    (llm : ReasonOutcome) : Bool × Bool :=
  if api_requests.length < 5 then (true, false)
  else
    let dl := lowerStr description
    let special :=
      strContains dl "weather" &&
      (strContains dl "san francisco" || strContains dl "san fran") &&
      api_requests.any (fun req =>
        let url := lowerStr (req.url.getD "")
        (strContains url "forecast7.com" && strContains url "san-francisco") ||
          strContains url "weatherwidget.io")
    if special then (true, false)
    else
      match llm with
      | .failure => (true, true)
      | .text s => (upperStr (pyStrip s) == "YES", true)

/-! ## Selector (llm_service.py, identify_api_request_with_confidence) -/

/- Python repr of a decoded JSON value, as used by `str(matched_request)` on
lines 460-464 of llm_service.py. String quote escaping is elided: no claim
feeds such strings through this path. -/
mutual
/-- Python `str`/`repr` of a decoded JSON value (a CPython dict structure). -/
def pyRepr : Json → String
  | .null => "None"
  | .bool true => "True"
  | .bool false => "False"
  | .num n => toString n
  | .str s => String.mk ['\''] ++ s ++ String.mk ['\'']
  | .arr xs => "[" ++ String.intercalate ", " (pyReprList xs) ++ "]"
  | .obj kvs =>
    String.mk [lbrace] ++ String.intercalate ", " (pyReprObj kvs) ++
      String.mk [rbrace]
def pyReprList : JsonList → List String
  | .nil => []
  | .cons x xs => pyRepr x :: pyReprList xs
def pyReprObj : JsonObj → List String
  | .nil => []
  | .cons k v kvs =>
    (String.mk ['\''] ++ k ++ String.mk ['\''] ++ ": " ++ pyRepr v) ::
      pyReprObj kvs
end

/-- Python `re.search(r'({.*})', text, re.DOTALL)`: the (greedy) match runs
from the first opening brace to the last closing brace after it; `none` when
no such pair exists. -/
def extractBraces (cs : List Char) : Option (List Char) :=
  let s1 := cs.dropWhile (fun c => c ≠ lbrace)
  match s1 with
  | [] => none
  | _ :: _ =>
    let r := s1.reverse.dropWhile (fun c => c ≠ rbrace)
    match r with
    | [] => none
    | _ :: _ => some r.reverse

/-- Numeric value of a decimal digit character. -/
def digitVal (c : Char) : ℕ := c.toNat - 48

/-- Natural number denoted by a digit string. -/
def natFromDigits (ds : List Char) : ℕ :=
  ds.foldl (fun a c => 10 * a + digitVal c) 0

/-- Exact rational value of the decimal numeral `d.ds`, modelling the
`float(...)` of the regex match. CPython's `float` rounds the numeral to the
nearest binary double, so the program's value can differ from this exact
rational by less than half an ulp; in particular a numeral just below 10
(such as 9.99999999999999999) rounds up to exactly 10.0, while the exact
value stays strictly below 10. The program-level confidence bound is
therefore only the closed interval [0, 10], and that is all the claim
theorems assert of this model. -/
def confVal (d : Char) (ds : List Char) : ℚ :=
  mkRat (digitVal d * 10 ^ ds.length + natFromDigits ds) (10 ^ ds.length)

/-- Attempted match of `[0-9]\.[0-9]+` at the head of the list (the `+` being
greedy, as in `re`). -/
def confAt (cs : List Char) : Option ℚ :=
  match cs with
  | d :: '.' :: e :: rest =>
    if d.isDigit && e.isDigit then
      some (confVal d (e :: rest.takeWhile Char.isDigit))
    else none
  | _ => none

/-- Python `re.search(r'([0-9]\.[0-9]+)', text)`: value of the leftmost match,
as consumed by `float(...)` on line 457. -/
def findConf : List Char → Option ℚ
  | [] => none
  | c :: rest =>
    match confAt (c :: rest) with
    | some q => some q
    | none => findConf rest

/-- Python `candidate.rstrip('.,;:!?')` (line 317). -/
def rstripPunct (s : String) : String :=
  String.mk
    (s.data.reverse.dropWhile
      (fun c => c == '.' || c == ',' || c == ';' || c == ':' || c == '!' || c == '?')).reverse

/-- Location extraction from a weather query (llm_service.py lines 308-317).
`description_lower.split(f" {word} ")[1].strip().split()[0]` raises IndexError
when the text after the first separator strips to the empty string; the error
constructor records that uncaught crash. -/
def extract_location (dl : String) : Except Unit (Option String) :=
  ["in", "for", "at", "of"].foldlM
    (fun loc w =>
      let sep := " " ++ w ++ " "
      if strContains dl sep then
        match pySplit dl sep with
        | _ :: p1 :: _ =>
          let t := pyStrip p1
          if t = "" then .error ()
          else
            .ok (some (rstripPunct
              (String.mk (t.data.takeWhile (fun c => !c.isWhitespace)))))
        | _ => .ok loc
      else .ok loc)
    none

/-- URL substrings treated as weather indicators (llm_service.py lines 325-328). -/
def weatherIndicators : List String :=
  ["weather", "forecast", "climate", "temperature", "meteorolog", "condition",
   "precip", "rain", "snow"]

/-- One element of the `weather_apis` list (llm_service.py lines 344-351). -/
structure WeatherApi where
  request : OptimizedRequest
  is_weather_api : Bool
  has_location_data : Bool
  location_match : Bool

/-- Pre-processing pass that collects potential weather APIs
(llm_service.py lines 319-351). -/
def weatherScan (location : Option String) (optimized : List OptimizedRequest) :
    List WeatherApi :=
  optimized.filterMap (fun req =>
    let url := lowerStr (req.url.getD "")
    let is_weather_api := weatherIndicators.any (fun ind => strContains url ind)
    let has_location_data :=
      coordSearch url.data || citySearch url.data ||
      strContains url "city" || strContains url "location"
    let location_match :=
      match location with
      | some loc => strContains url loc
      | none => false
    if is_weather_api || strContains url "forecast" then
      some
        { request := req, is_weather_api := is_weather_api,
          has_location_data := has_location_data,
          location_match := location_match }
    else none)

/-- Hard failures the Selector can surface: the `ValueError("No API requests
found in the HAR file")` raised on an empty optimized list, and the uncaught
IndexError of the location extraction. -/
inductive SelectorError where
  | noCandidates : SelectorError
  | indexError : SelectorError
deriving DecidableEq

/-- What the Selector hands back: an element of the budgeted candidate list,
or the JSON object parsed out of the reasoning response. -/
inductive Selected where
  | fromList : OptimizedRequest → Selected
  | fromLlm : Json → Selected

/-- Fallback of the Selector (llm_service.py lines 473-477 and 480-484):
first optimized request at confidence 0.1, or the hard failure when there is
none. -/
def sel_fallback (optimized : List OptimizedRequest) :
    Except SelectorError (Selected × ℚ) :=
  match optimized with
  | r :: _ => .ok (.fromList r, mkRat 1 10)
  | [] => .error .noCandidates

/-- Python `max` on two rationals. -/
def pyMax (a b : ℚ) : ℚ := if a ≤ b then b else a

/-- Python `min` on two rationals. -/
def pyMin (a b : ℚ) : ℚ := if b ≤ a then b else a

/-- Confidence adjustment for widget-looking matches (llm_service.py lines
459-467). Python's precedence parses line 460 as
`(is_weather_query and 'weatherwidget' in repr) or ('forecast' in repr)`. -/
def boostConf (is_weather_query : Bool) (location : Option String) (j : Json)
    (conf : ℚ) : ℚ :=
  if (is_weather_query && strContains (pyRepr j) "weatherwidget") ||
      strContains (pyRepr j) "forecast" then
    match location with
    | some loc =>
      if strContains (lowerStr (pyRepr j)) loc then pyMax conf (mkRat 9 10)
      else pyMin conf (mkRat 3 10)
    | none => conf
  else conf

/-- The try-block of the Selector (llm_service.py lines 433-484): the
reasoning call, regex extraction of the JSON object and confidence, the
widget confidence adjustment, and the fallback. -/
def sel_llm_path (loads : String → Option Json)
    (optimized : List OptimizedRequest) (is_weather_query : Bool)
    (location : Option String) (llm : ReasonOutcome) :
    Except SelectorError (Selected × ℚ) :=
  match llm with
  | .failure => sel_fallback optimized
  | .text s =>
    match extractBraces s.data with
    | some sub =>
      match loads (String.mk sub) with
      | some j =>
        let confidence := (findConf s.data).getD (mkRat 1 2)
        .ok (.fromLlm j, boostConf is_weather_query location j confidence)
      | none => sel_fallback optimized
    | none => sel_fallback optimized

/-- The Selector (llm_service.py lines 289-484): token optimization, weather
shortcut, then the reasoning call with regex extraction and fallback. -/
def identify_api_request_with_confidence (loads : String → Option Json)
    (api_requests : List ApiRequest) (description : String)
    (llm : ReasonOutcome) : Except SelectorError (Selected × ℚ) :=
  let optimized := optimize_for_tokens loads api_requests
  let dl := lowerStr description
  let is_weather_query := strContains dl "weather"
  match (if is_weather_query then extract_location dl else Except.ok none) with
  | .error _ => .error .indexError
  | .ok location =>
    match weatherScan location optimized with
    | [] => sel_llm_path loads optimized is_weather_query location llm
    | w :: ws =>
      if is_weather_query then
        match location with
        | some _ =>
          match (w :: ws).filter (fun a => a.location_match) with
          | e :: _ => .ok (.fromList e.request, mkRat 95 100)
          | [] =>
            match (w :: ws).filter (fun a => a.has_location_data) with
            | a :: _ => .ok (.fromList a.request, mkRat 3 10)
            | [] => .ok (.fromList w.request, mkRat 7 10)
        | none => .ok (.fromList w.request, mkRat 7 10)
      else sel_llm_path loads optimized is_weather_query location llm

/-! ## Reconciler (analyze.py lines 92-103) -/

/-- The identifying fields of the (possibly reformatted) object the Selector
emitted, as read by `api_request.get('url')` / `.get('method')`. -/
structure SelectorObj where
  method : Option String
  url : Option String

/-- The Reconciler: first candidate whose url and method equal the selected
object's, else the selected object verbatim. -/
def reconcile (processed_har : List ApiRequest) (api_request : SelectorObj) :
    ApiRequest ⊕ SelectorObj :=
  match processed_har.find?
      (fun req => req.url == api_request.url && req.method == api_request.method) with
  | some original => .inl original
  | none => .inr api_request

/-! ## Concrete data used by witnesses and counterexamples -/

/-- A `json.loads` instantiation for paths that never parse JSON. -/
def loadsNone : String → Option Json := fun _ => none

/-- The single log entry of the spec's first scenario: GET
`https://x.com/api/data/items/42` answered with `application/json`. -/
def entryC1 : RawEntry :=
  { request :=
      { method := some "GET", url := some "https://x.com/api/data/items/42",
        headers := [], queryString := [], postData := none },
    response :=
      { status := some 200, headers := [("content-type", "application/json")],
        contentText := none } }

/-- A reasoning-response text holding a JSON object and the decimal 2.5. -/
def t0 : String := "\x7b\"a\": 1\x7d 2.5"

/-- The parse of the JSON object inside `t0`. -/
def j0 : Json := .obj (.cons "a" (.num 1) .nil)

/-- A `json.loads` instantiation agreeing with CPython on the one string the
counterexamples feed it. -/
def loads0 : String → Option Json := fun s =>
  if s = "\x7b\"a\": 1\x7d" then some j0 else none

/-- A plain JSON API candidate with no weather indicator in its URL. -/
def r0 : ApiRequest :=
  { method := some "GET", url := some "https://x.com/api/items",
    headers := [], query_params := [], response_status := some 200,
    response_content_type := "application/json", relevance_score := 10,
    body := none, response_body := none, response_parsed := none }

/-- A candidate whose URL contains the weather indicator `forecast`. -/
def wreq : ApiRequest :=
  { method := some "GET", url := some "https://w.example/forecast",
    headers := [], query_params := [], response_status := some 200,
    response_content_type := "application/json", relevance_score := 10,
    body := none, response_body := none, response_parsed := none }

/-- First of two candidates sharing method and url. -/
def e1c4 : ApiRequest :=
  { method := some "GET", url := some "https://x.com/api/a",
    headers := [], query_params := [], response_status := some 200,
    response_content_type := "application/json", relevance_score := 1,
    body := none, response_body := none, response_parsed := none }

/-- Second of two candidates sharing method and url with `e1c4` but differing
in relevance_score. -/
def e2c4 : ApiRequest :=
  { method := some "GET", url := some "https://x.com/api/a",
    headers := [], query_params := [], response_status := some 200,
    response_content_type := "application/json", relevance_score := 2,
    body := none, response_body := none, response_parsed := none }

/-- A Selector output carrying the shared method and url of `e1c4`/`e2c4`. -/
def selc4 : SelectorObj :=
  { method := some "GET", url := some "https://x.com/api/a" }

/-- A request body used by the budgeter fidelity witness. -/
def body8 : ReqBody :=
  { mime_type := "application/json", text := "\x7b\"k\": 1\x7d",
    params := [], parsed_json := some (.obj (.cons "k" (.num 1) .nil)),
    format := "json" }

/-- A request carrying `body8`, for the budgeter fidelity witness. -/
def rbody8 : ApiRequest :=
  { method := some "POST", url := some "https://x.com/api/items",
    headers := [("Content-Type", "application/json"), ("X-Junk", "1")],
    query_params := [("q", "1")], response_status := some 200,
    response_content_type := "application/json", relevance_score := 13,
    body := some body8,
    response_body := none, response_parsed := none }

/-- A static JavaScript resource, for the budgeter bucket witness. -/
def jsreq : ApiRequest :=
  { method := some "GET", url := some "https://x.com/static/app.js",
    headers := [], query_params := [], response_status := some 200,
    response_content_type := "application/javascript", relevance_score := -5,
    body := none, response_body := none, response_parsed := none }

/-- The budgeted form of `wreq`, named for the confidence witness. -/
def wopt : OptimizedRequest := reduceRequest loadsNone wreq

/-- The JSON object, if any, that the regex-extraction and `json.loads`
pipeline (llm_service.py lines 449-456) recovers from a reasoning outcome. -/
def llmJson (loads : String → Option Json) : ReasonOutcome → Option Json
  | .failure => none
  | .text s => (extractBraces s.data).bind (fun sub => loads (String.mk sub))

/-- Descending order on relevance scores, pairwise. -/
def SortedDesc (l : List ApiRequest) : Prop :=
  l.Pairwise (fun a b => b.relevance_score ≤ a.relevance_score)

/-- Predicate picking candidates of one given score. -/
def scoreIs (s : Int) (r : ApiRequest) : Bool := r.relevance_score == s

/-! ## Theorems -/

theorem listPre_iff (n h : List Char) : listPre n h = true ↔ ∃ q, h = n ++ q := by
  induction n generalizing h with
  | nil => simp [listPre]
  | cons a n1 ih =>
    cases h with
    | nil => simp [listPre]
    | cons b h1 =>
      simp only [listPre, Bool.and_eq_true, beq_iff_eq, ih, List.cons_append,
        List.cons.injEq]
      constructor
      · rintro ⟨rfl, q, rfl⟩; exact ⟨q, rfl, rfl⟩
      · rintro ⟨q, rfl, rfl⟩; exact ⟨rfl, q, rfl⟩

theorem listSub_iff (n h : List Char) : listSub n h = true ↔ ∃ p q, h = p ++ n ++ q := by
  induction h with
  | nil =>
    simp only [listSub, List.isEmpty_iff]
    constructor
    · rintro rfl; exact ⟨[], [], rfl⟩
    · rintro ⟨p, q, hpq⟩
      rcases List.append_eq_nil.mp (List.append_eq_nil.mp hpq.symm).1 with ⟨-, h2⟩
      exact h2
  | cons b t ih =>
    simp only [listSub, Bool.or_eq_true, listPre_iff, ih]
    constructor
    · rintro (⟨q, hq⟩ | ⟨p, q, hq⟩)
      · exact ⟨[], q, by simp [hq]⟩
      · exact ⟨b :: p, q, by simp [hq]⟩
    · rintro ⟨p, q, hpq⟩
      cases p with
      | nil => exact Or.inl ⟨q, by simpa using hpq⟩
      | cons c p1 =>
        refine Or.inr ⟨p1, q, ?_⟩
        have := hpq
        simp only [List.cons_append, List.cons.injEq] at this
        exact this.2

/-- Containment survives character-wise lowering when the needle's characters
are fixed by `Char.toLower`. -/
theorem strContains_lower (hay needle : String)
    (hfix : needle.data.map Char.toLower = needle.data)
    (h : strContains hay needle = true) :
    strContains (lowerStr hay) needle = true := by
  rcases (listSub_iff _ _).mp h with ⟨p, q, hpq⟩
  apply (listSub_iff _ _).mpr
  refine ⟨p.map Char.toLower, q.map Char.toLower, ?_⟩
  show (lowerStr hay).data = _
  simp [lowerStr, hpq, hfix]

/-- Suffix survives character-wise lowering when the suffix's characters are
fixed by `Char.toLower`. -/
theorem endsStr_lower (hay suffix : String)
    (hfix : suffix.data.map Char.toLower = suffix.data)
    (h : endsStr hay suffix = true) :
    endsStr (lowerStr hay) suffix = true := by
  rcases (listPre_iff _ _).mp h with ⟨q, hq⟩
  apply (listPre_iff _ _).mpr
  refine ⟨q.map Char.toLower, ?_⟩
  show ((lowerStr hay).data).reverse = _
  have : (hay.data.map Char.toLower).reverse = (hay.data.reverse).map Char.toLower := by
    simp [List.map_reverse]
  rw [lowerStr]
  simp only [String.data]
  rw [this, hq]
  simp [hfix]

/-! ## Lemmas about the stable descending sort -/

theorem scoreIs_eq_true {s : Int} {r : ApiRequest} :
    scoreIs s r = true ↔ r.relevance_score = s := by
  simp [scoreIs]

theorem scoreIs_eq_false {s : Int} {r : ApiRequest} :
    scoreIs s r = false ↔ ¬ r.relevance_score = s := by
  simp [scoreIs]

theorem mem_insertDesc {x a : ApiRequest} {l : List ApiRequest}
    (h : a ∈ insertDesc x l) : a = x ∨ a ∈ l := by
  induction l with
  | nil =>
    simp only [insertDesc, List.mem_singleton] at h
    exact Or.inl h
  | cons y ys ih =>
    simp only [insertDesc] at h
    by_cases hc : y.relevance_score ≤ x.relevance_score
    · rw [if_pos hc] at h
      rcases List.mem_cons.mp h with h1 | h1
      · exact Or.inl h1
      · exact Or.inr h1
    · rw [if_neg hc] at h
      rcases List.mem_cons.mp h with h1 | h1
      · exact Or.inr (List.mem_cons.mpr (Or.inl h1))
      · rcases ih h1 with h2 | h2
        · exact Or.inl h2
        · exact Or.inr (List.mem_cons.mpr (Or.inr h2))

theorem sorted_insertDesc {x : ApiRequest} {l : List ApiRequest}
    (h : SortedDesc l) : SortedDesc (insertDesc x l) := by
  induction l with
  | nil => simp [insertDesc, SortedDesc]
  | cons y ys ih =>
    rcases List.pairwise_cons.mp h with ⟨hy, hys⟩
    simp only [insertDesc]
    by_cases hc : y.relevance_score ≤ x.relevance_score
    · rw [if_pos hc]
      apply List.pairwise_cons.mpr
      refine ⟨?_, h⟩
      intro b hb
      rcases List.mem_cons.mp hb with rfl | hb1
      · omega
      · have := hy b hb1
        omega
    · rw [if_neg hc]
      apply List.pairwise_cons.mpr
      refine ⟨?_, ih hys⟩
      intro b hb
      rcases mem_insertDesc hb with rfl | hb1
      · omega
      · exact hy b hb1

theorem sortDesc_sorted (l : List ApiRequest) : SortedDesc (sortDesc l) := by
  induction l with
  | nil => simp [sortDesc, SortedDesc]
  | cons x xs ih => exact sorted_insertDesc ih

theorem insertDesc_filter (x : ApiRequest) (l : List ApiRequest) (s : Int) :
    (insertDesc x l).filter (scoreIs s)
      = if x.relevance_score = s then x :: l.filter (scoreIs s)
        else l.filter (scoreIs s) := by
  induction l with
  | nil =>
    simp only [insertDesc]
    by_cases hx : x.relevance_score = s
    · rw [if_pos hx, List.filter_cons_of_pos (scoreIs_eq_true.mpr hx)]
    · rw [if_neg hx, List.filter_cons_of_neg (by simp [scoreIs, hx])]
  | cons y ys ih =>
    simp only [insertDesc]
    by_cases hc : y.relevance_score ≤ x.relevance_score
    · rw [if_pos hc]
      by_cases hx : x.relevance_score = s
      · rw [List.filter_cons_of_pos (scoreIs_eq_true.mpr hx), if_pos hx]
      · rw [List.filter_cons_of_neg (by simp [scoreIs, hx]), if_neg hx]
    · rw [if_neg hc]
      have hxy : x.relevance_score < y.relevance_score := by omega
      by_cases hy : y.relevance_score = s
      · have hx : ¬ x.relevance_score = s := by omega
        rw [List.filter_cons_of_pos (scoreIs_eq_true.mpr hy),
          List.filter_cons_of_pos (scoreIs_eq_true.mpr hy), if_neg hx, ih,
          if_neg hx]
      · rw [List.filter_cons_of_neg (by simp [scoreIs, hy]),
          List.filter_cons_of_neg (by simp [scoreIs, hy]), ih]

theorem sortDesc_filter (l : List ApiRequest) (s : Int) :
    (sortDesc l).filter (scoreIs s) = l.filter (scoreIs s) := by
  induction l with
  | nil => rfl
  | cons x xs ih =>
    simp only [sortDesc]
    rw [insertDesc_filter]
    by_cases hx : x.relevance_score = s
    · rw [if_pos hx, ih, List.filter_cons_of_pos (scoreIs_eq_true.mpr hx)]
    · rw [if_neg hx, ih, List.filter_cons_of_neg (by simp [scoreIs, hx])]

/-! ## Lemmas about the budgeter's bucket loop -/

theorem bucketLoop_spec (l : List ApiRequest) :
    bucketLoop l =
      (l.filter (fun r => bucketOf r == Bucket.dataApi),
       l.filter (fun r => bucketOf r == Bucket.possibleApi),
       l.filter (fun r => bucketOf r == Bucket.staticRes)) := by
  induction l with
  | nil => rfl
  | cons r rs ih =>
    simp only [bucketLoop, ih]
    cases hb : bucketOf r <;>
      simp [List.filter_cons, hb]

/-! ## Bounds for the parsed confidence value -/

theorem digitVal_le {c : Char} (h : c.isDigit = true) : digitVal c ≤ 9 := by
  simp [Char.isDigit] at h
  rcases h with ⟨h1, h2⟩
  have h2n : c.val.toNat ≤ 57 := UInt32.toNat_le_of_le (by decide) h2
  simp only [digitVal, Char.toNat]
  omega

theorem natFromDigits_aux_lt (ds : List Char) (a : ℕ)
    (h : ∀ c ∈ ds, c.isDigit = true) :
    ds.foldl (fun x c => 10 * x + digitVal c) a < (a + 1) * 10 ^ ds.length := by
  induction ds generalizing a with
  | nil => simp
  | cons c cs ih =>
    have hd : digitVal c ≤ 9 := digitVal_le (h c (by simp))
    have hrec := ih (10 * a + digitVal c) (fun x hx => h x (by simp [hx]))
    calc (c :: cs).foldl (fun x c => 10 * x + digitVal c) a
        = cs.foldl (fun x c => 10 * x + digitVal c) (10 * a + digitVal c) := rfl
      _ < (10 * a + digitVal c + 1) * 10 ^ cs.length := hrec
      _ ≤ ((a + 1) * 10) * 10 ^ cs.length := by
          apply Nat.mul_le_mul_right
          omega
      _ = (a + 1) * 10 ^ (c :: cs).length := by
          rw [List.length_cons, pow_succ]
          ring

theorem natFromDigits_lt (ds : List Char) (h : ∀ c ∈ ds, c.isDigit = true) :
    natFromDigits ds < 10 ^ ds.length := by
  have := natFromDigits_aux_lt ds 0 h
  simpa [natFromDigits] using this

theorem confVal_bounds {d : Char} {ds : List Char} (hd : d.isDigit = true)
    (hds : ∀ c ∈ ds, c.isDigit = true) :
    0 ≤ confVal d ds ∧ confVal d ds < 10 := by
  have h9 : digitVal d ≤ 9 := digitVal_le hd
  have hlt : natFromDigits ds < 10 ^ ds.length := natFromDigits_lt ds hds
  have hnum : digitVal d * 10 ^ ds.length + natFromDigits ds < 10 * 10 ^ ds.length := by
    have hm := Nat.mul_le_mul_right (10 ^ ds.length) h9
    omega
  have hpos : (0 : ℚ) < ((10 ^ ds.length : ℕ) : ℚ) := by
    exact_mod_cast pow_pos (by norm_num : (0 : ℕ) < 10) ds.length
  rw [confVal, Rat.mkRat_eq_div]
  constructor
  · apply div_nonneg
    · push_cast
      positivity
    · exact le_of_lt hpos
  · rw [div_lt_iff₀ hpos]
    push_cast
    have h1 : (digitVal d : ℚ) ≤ 9 := by exact_mod_cast h9
    have h2 : (natFromDigits ds : ℚ) < 10 ^ ds.length := by exact_mod_cast hlt
    have h3 : (0 : ℚ) < 10 ^ ds.length := by positivity
    nlinarith [mul_le_mul_of_nonneg_right h1 (le_of_lt h3)]

theorem confAt_bounds {cs : List Char} {q : ℚ} (h : confAt cs = some q) :
    0 ≤ q ∧ q < 10 := by
  unfold confAt at h
  split at h
  · rename_i d e rest
    split at h
    · rename_i hde
      simp only [Bool.and_eq_true] at hde
      rcases hde with ⟨hd, he⟩
      have hds : ∀ c ∈ (e :: rest.takeWhile Char.isDigit), c.isDigit = true := by
        intro c hc
        rcases List.mem_cons.mp hc with rfl | hc
        · exact he
        · exact List.mem_takeWhile_imp hc
      have hb := confVal_bounds hd hds
      simp only [Option.some.injEq] at h
      rw [← h]
      exact hb
    · exact absurd h (by simp)
  · exact absurd h (by simp)

theorem findConf_bounds {cs : List Char} {q : ℚ} (h : findConf cs = some q) :
    0 ≤ q ∧ q < 10 := by
  induction cs with
  | nil => exact absurd h (by simp [findConf])
  | cons c rest ih =>
    unfold findConf at h
    split at h
    · rename_i q1 hq1
      simp only [Option.some.injEq] at h
      rw [← h]
      exact confAt_bounds hq1
    · exact ih h

theorem pyMax_bounds {a b : ℚ} (ha : 0 ≤ a ∧ a < 10) (hb : 0 ≤ b ∧ b < 10) :
    0 ≤ pyMax a b ∧ pyMax a b < 10 := by
  unfold pyMax
  split <;> simp [ha, hb]

theorem pyMin_bounds {a b : ℚ} (ha : 0 ≤ a ∧ a < 10) (hb : 0 ≤ b ∧ b < 10) :
    0 ≤ pyMin a b ∧ pyMin a b < 10 := by
  unfold pyMin
  split <;> simp [ha, hb]

theorem boostConf_bounds {iw : Bool} {loc : Option String} {j : Json} {conf : ℚ}
    (h : 0 ≤ conf ∧ conf < 10) :
    0 ≤ boostConf iw loc j conf ∧ boostConf iw loc j conf < 10 := by
  unfold boostConf
  split
  · split
    · split
      · exact pyMax_bounds h (by constructor <;> decide)
      · exact pyMin_bounds h (by constructor <;> decide)
    · exact h
  · exact h

theorem sel_fallback_conf {optimized : List OptimizedRequest}
    {sel : Selected} {c : ℚ} (h : sel_fallback optimized = .ok (sel, c)) :
    c = mkRat 1 10 := by
  unfold sel_fallback at h
  split at h
  · simp only [Except.ok.injEq, Prod.mk.injEq] at h
    exact h.2.symm
  · exact absurd h (by simp)

theorem sel_fallback_empty : sel_fallback [] = .error .noCandidates := rfl

theorem sel_llm_path_bound {loads : String → Option Json}
    {optimized : List OptimizedRequest} {iw : Bool} {loc : Option String}
    {llm : ReasonOutcome} {sel : Selected} {c : ℚ}
    (h : sel_llm_path loads optimized iw loc llm = .ok (sel, c)) :
    0 ≤ c ∧ c < 10 := by
  unfold sel_llm_path at h
  split at h
  · rw [sel_fallback_conf h]
    constructor <;> decide
  · split at h
    · split at h
      · simp only [Except.ok.injEq, Prod.mk.injEq] at h
        rw [← h.2]
        apply boostConf_bounds
        cases hfc : findConf _ with
        | none =>
          simp only [hfc, Option.getD_none]
          constructor <;> decide
        | some q =>
          simp only [hfc, Option.getD_some]
          exact findConf_bounds hfc
      · rw [sel_fallback_conf h]
        constructor <;> decide
    · rw [sel_fallback_conf h]
      constructor <;> decide

theorem identify_empty (loads : String → Option Json) (desc : String)
    (llm : ReasonOutcome) :
    identify_api_request_with_confidence loads [] desc llm = .error .indexError
    ∨ ∃ loc, identify_api_request_with_confidence loads [] desc llm
        = sel_llm_path loads [] (strContains (lowerStr desc) "weather") loc llm := by
  simp only [identify_api_request_with_confidence]
  cases hel : (if strContains (lowerStr desc) "weather" then
      extract_location (lowerStr desc) else Except.ok none) with
  | error e => left; rfl
  | ok loc => right; exact ⟨loc, rfl⟩

theorem sel_llm_path_empty (loads : String → Option Json) (iw : Bool)
    (loc : Option String) (llm : ReasonOutcome) :
    (∃ j c, sel_llm_path loads [] iw loc llm = .ok (.fromLlm j, c) ∧
      llmJson loads llm = some j)
    ∨ (sel_llm_path loads [] iw loc llm = .error .noCandidates ∧
      llmJson loads llm = none) := by
  cases llm with
  | failure => right; exact ⟨rfl, rfl⟩
  | text s =>
    cases hb : extractBraces s.data with
    | none =>
      right
      constructor
      · simp [sel_llm_path, hb, sel_fallback]
      · simp [llmJson, hb]
    | some sub =>
      cases hl : loads (String.mk sub) with
      | none =>
        right
        constructor
        · simp [sel_llm_path, hb, hl, sel_fallback]
        · simp [llmJson, hb, hl]
      | some j =>
        left
        refine ⟨j, boostConf iw loc j ((findConf s.data).getD (mkRat 1 2)), ?_, ?_⟩
        · simp [sel_llm_path, hb, hl]
        · simp [llmJson, hb, hl]

/-! ## Claim theorems -/

/-- C1 counterexample: on the scenario log with the single entry
{GET, `https://x.com/api/data/items/42`, `application/json`}, the Candidate
Extractor returns one candidate whose relevance_score is 50, not 23: the URL
also matches the data-resource (+15) and entity-resource (+12) patterns. -/
theorem c1_scenario_counterexample :
    (extract_entries loadsNone [entryC1]).map (fun r => r.relevance_score) = [50]
    ∧ ((extract_entries loadsNone [entryC1]).map (fun r => r.relevance_score)
        == [23]) = false :=
  ⟨rfl, by decide⟩

/-- C1 amended: for the scenario log with the single entry
{GET, `https://x.com/api/data/items/42`, `application/json`}, the Candidate
Extractor returns exactly one candidate, and that candidate's relevance_score
equals 50 = 15 (data resource) + 12 (entity resource) + 10 (API marker)
+ 8 (`/data/`) + 5 (json). -/
theorem c1_scenario_amended (loads : String → Option Json) :
    ∃ r, extract_entries loads [entryC1] = [r] ∧ r.relevance_score = 50 :=
  ⟨_, rfl, rfl⟩

/-- C2 counterexample: with one candidate and a reasoning response containing
a JSON object followed by the decimal 2.5, the Selector returns confidence
2.5, which lies outside [0, 1]. -/
theorem c2_confidence_counterexample :
    identify_api_request_with_confidence loads0 [r0] "x" (.text t0)
      = .ok (.fromLlm j0, mkRat 5 2)
    ∧ decide ((mkRat 5 2 : ℚ) ≤ 1) = false :=
  ⟨rfl, by decide⟩

/-- C2 amended: for every candidate list, query, and reasoning outcome, the
confidence in any returned (selected, confidence) pair lies in the closed
interval [0, 10]: it is one of the fixed values 0.95, 0.3, 0.7, 0.1, the
default 0.5, or the `float` of a numeral matched by `[0-9]\.[0-9]+` — an
exact value below 10 that CPython rounding can carry up to exactly 10.0 —
possibly clamped by the widget adjustment. It need not lie in [0, 1]. -/
theorem c2_confidence_amended (loads : String → Option Json)
    (api_requests : List ApiRequest) (description : String)
    (llm : ReasonOutcome) (sel : Selected) (c : ℚ)
    (h : identify_api_request_with_confidence loads api_requests description llm
      = .ok (sel, c)) :
    0 ≤ c ∧ c ≤ 10 := by
  have weaken : 0 ≤ c ∧ c < 10 → 0 ≤ c ∧ c ≤ 10 :=
    fun hb => ⟨hb.1, le_of_lt hb.2⟩
  apply weaken
  simp only [identify_api_request_with_confidence] at h
  split at h
  · simp at h
  · split at h
    · exact sel_llm_path_bound h
    · split at h
      · split at h
        · split at h
          · simp only [Except.ok.injEq, Prod.mk.injEq] at h
            rw [← h.2]
            constructor <;> decide
          · split at h
            · simp only [Except.ok.injEq, Prod.mk.injEq] at h
              rw [← h.2]
              constructor <;> decide
            · simp only [Except.ok.injEq, Prod.mk.injEq] at h
              rw [← h.2]
              constructor <;> decide
        · simp only [Except.ok.injEq, Prod.mk.injEq] at h
          rw [← h.2]
          constructor <;> decide
      · exact sel_llm_path_bound h

/-- C2 witness: the amended bound holds at a concrete weather-shortcut run
returning confidence 0.7. -/
theorem c2_confidence_amended_witness :
    0 ≤ (mkRat 7 10 : ℚ) ∧ (mkRat 7 10 : ℚ) ≤ 10 :=
  c2_confidence_amended loadsNone [wreq] "weather" .failure (.fromList wopt)
    (mkRat 7 10) rfl

/-- C3 counterexample: on an empty candidate list, when the reasoning response
contains a parseable JSON object the Selector returns that object with the
parsed confidence instead of raising; and with a non-empty list the query
"weather in " makes the Selector crash with an uncaught IndexError, so the
empty list is not the only input condition surfacing a hard failure. -/
theorem c3_empty_list_counterexample :
    identify_api_request_with_confidence loads0 [] "x" (.text t0)
      = .ok (.fromLlm j0, mkRat 5 2)
    ∧ identify_api_request_with_confidence loads0 [r0] "weather in " .failure
      = .error .indexError :=
  ⟨rfl, rfl⟩

/-- C3 amended: on an empty candidate list the Selector never returns a
candidate from the list: it raises NoCandidatesError exactly when the
reasoning call fails or its response contains no parseable JSON object, it
returns the response's fabricated JSON object when one parses, and for weather
queries whose location extraction crashes it raises IndexError instead.
(Non-empty lists can also surface the IndexError hard failure.) -/
theorem c3_empty_list_amended (loads : String → Option Json) (desc : String)
    (llm : ReasonOutcome) :
    (∃ j c, identify_api_request_with_confidence loads [] desc llm
        = .ok (.fromLlm j, c) ∧ llmJson loads llm = some j)
    ∨ (identify_api_request_with_confidence loads [] desc llm
        = .error .noCandidates ∧ llmJson loads llm = none)
    ∨ identify_api_request_with_confidence loads [] desc llm
        = .error .indexError := by
  rcases identify_empty loads desc llm with h | ⟨loc, h⟩
  · right; right; exact h
  · rcases sel_llm_path_empty loads (strContains (lowerStr desc) "weather") loc llm with
      ⟨j, c, h1, h2⟩ | ⟨h1, h2⟩
    · left; exact ⟨j, c, h ▸ h1, h2⟩
    · right; left; exact ⟨h ▸ h1, h2⟩

/-- C4 counterexample: with two distinct candidates sharing (method, url),
the Reconciler returns the first, so it does not return E's record for every
matching entry E (here E = the second). -/
theorem c4_reconciler_counterexample :
    e2c4 ∈ [e1c4, e2c4]
    ∧ selc4.url = e2c4.url
    ∧ selc4.method = e2c4.method
    ∧ reconcile [e1c4, e2c4] selc4 = Sum.inl e1c4
    ∧ (e1c4.relevance_score == e2c4.relevance_score) = false :=
  ⟨by simp, rfl, rfl, rfl, by decide⟩

/-- C4 amended: the Reconciler returns the first candidate whose method and
url equal the Selector output's; in particular, when exactly one entry E
matches, it returns E's full original record, and when no entry matches it
returns the Selector's output verbatim. -/
theorem c4_reconciler_amended (l : List ApiRequest) (sel : SelectorObj) :
    (∀ E, E ∈ l → E.url = sel.url → E.method = sel.method →
      (∀ F, F ∈ l → F.url = sel.url → F.method = sel.method → F = E) →
      reconcile l sel = Sum.inl E)
    ∧ ((∀ E, E ∈ l → ¬(E.url = sel.url ∧ E.method = sel.method)) →
      reconcile l sel = Sum.inr sel) := by
  constructor
  · intro E hE hu hm huniq
    unfold reconcile
    cases hf : l.find? (fun req => req.url == sel.url && req.method == sel.method) with
    | none =>
      exfalso
      have := List.find?_eq_none.mp hf E hE
      simp [hu, hm] at this
    | some F =>
      have hpF := List.find?_some hf
      simp only [Bool.and_eq_true, beq_iff_eq] at hpF
      have hFmem := List.mem_of_find?_eq_some hf
      rw [huniq F hFmem hpF.1 hpF.2]
  · intro hnone
    unfold reconcile
    have hf : l.find? (fun req => req.url == sel.url && req.method == sel.method)
        = none := by
      apply List.find?_eq_none.mpr
      intro x hx hpx
      simp only [Bool.and_eq_true, beq_iff_eq] at hpx
      exact hnone x hx hpx
    rw [hf]

/-- C4 witness: on a singleton list whose entry matches the selected object,
the Reconciler returns that entry's full record. -/
theorem c4_reconciler_amended_witness : reconcile [e1c4] selc4 = Sum.inl e1c4 :=
  (c4_reconciler_amended [e1c4] selc4).1 e1c4 (by simp) rfl rfl
    (fun F hF _ _ => by simpa using hF)

/-- C5 counterexample: the byte stream `[]` decodes as JSON but not as a
traffic-capture document, yet ingestion fails with AttributeError (the generic
500 path), not with MalformedInput (the JSONDecodeError 400 path). -/
theorem c5_malformed_counterexample :
    process_har_file loadsNone (.doc (.arr .nil)) = .error .attributeError
    ∧ decide (IngestError.attributeError = IngestError.malformedInput) = false :=
  ⟨rfl, by decide⟩

/-- C5 amended: ingestion fails with MalformedInput exactly for byte streams
whose JSON parsing fails, before any candidate extraction; bytes that are not
valid UTF-8 surface UnicodeDecodeError instead, and valid JSON that is not an
object surfaces AttributeError — both distinct from MalformedInput and from
the non-error empty-candidate outcome. -/
theorem c5_malformed_amended (loads : String → Option Json) :
    process_har_file loads .badJson = .error .malformedInput
    ∧ process_har_file loads .badUtf8 = .error .unicodeDecodeError :=
  ⟨rfl, rfl⟩

/-- C6 confirmed: the Token Budgeter's output is the concatenation of the
data_api, possible_api and static buckets in that order (each bucket keeping
the input's relative order, then field-reduced), and every candidate whose URL
ends in `.js` or whose response content-type contains "javascript" is assigned
to the static bucket regardless of any other flag — this re-ranking overrides
the incoming relevance_score order. -/
theorem c6_bucket_order (loads : String → Option Json) (l : List ApiRequest) :
    optimize_for_tokens loads l =
      ((l.filter (fun r => bucketOf r == Bucket.dataApi)) ++
        (l.filter (fun r => bucketOf r == Bucket.possibleApi)) ++
        (l.filter (fun r => bucketOf r == Bucket.staticRes))).map
        (reduceRequest loads)
    ∧ ∀ r : ApiRequest,
        (endsStr (r.url.getD "") ".js" = true ∨
          strContains r.response_content_type "javascript" = true) →
        bucketOf r = Bucket.staticRes := by
  constructor
  · simp only [optimize_for_tokens, bucketLoop_spec]
  · intro r hr
    have hcond : (endsStr (lowerStr (r.url.getD "")) ".js" ||
        strContains (lowerStr r.response_content_type) "javascript") = true := by
      rcases hr with hr | hr
      · exact Bool.or_eq_true_iff.mpr
          (Or.inl (endsStr_lower _ _ (by decide) hr))
      · exact Bool.or_eq_true_iff.mpr
          (Or.inr (strContains_lower _ _ (by decide) hr))
    simp only [bucketOf, hcond, if_true]

/-- C6 witness: a `.js` JavaScript resource lands in the static bucket. -/
theorem c6_bucket_order_witness : bucketOf jsreq = Bucket.staticRes :=
  (c6_bucket_order loadsNone []).2 jsreq (Or.inl (by decide))

/-- C7 confirmed: the Candidate Extractor's output is sorted by
relevance_score descending, and for each score the candidates of that score
appear in the same relative order as their entries appear in the input log
(the unsorted classification pass preserves log order). -/
theorem c7_sorted_stable (loads : String → Option Json)
    (entries : List RawEntry) :
    SortedDesc (extract_entries loads entries)
    ∧ ∀ s : Int, (extract_entries loads entries).filter (scoreIs s)
        = (entries.filterMap (classifyEntry loads)).filter (scoreIs s) := by
  constructor
  · exact sortDesc_sorted _
  · intro s
    exact sortDesc_filter _ s

/-- C8 confirmed: the budgeted form of any candidate carries its body's
mime_type, format, raw text, parsed_json and form params verbatim and
untruncated (an empty form-params list is represented by an absent key, read
back as the empty list); method, url, response_status, response_content_type
and query_params are also carried verbatim, so only headers and response_body
are reduced. -/
theorem c8_body_verbatim (loads : String → Option Json) (r : ApiRequest)
    (b : ReqBody) (h : r.body = some b) :
    ∃ ob : OptBody, (reduceRequest loads r).body = some ob
      ∧ ob.mime_type = b.mime_type
      ∧ ob.format = b.format
      ∧ ob.text = b.text
      ∧ ob.parsed_json = b.parsed_json
      ∧ ob.params.getD [] = b.params
      ∧ (reduceRequest loads r).method = r.method
      ∧ (reduceRequest loads r).url = r.url
      ∧ (reduceRequest loads r).response_status = r.response_status
      ∧ (reduceRequest loads r).response_content_type = r.response_content_type
      ∧ (reduceRequest loads r).query_params.getD [] = r.query_params := by
  refine ⟨_, by rw [reduceRequest, h]; rfl, rfl, rfl, rfl, rfl, ?_, rfl, rfl,
    rfl, rfl, ?_⟩
  · by_cases hp : b.params.isEmpty
    · simp [hp, List.isEmpty_iff.mp hp]
    · simp [hp]
  · simp only [reduceRequest]
    by_cases hq : r.query_params.isEmpty
    · simp [hq, List.isEmpty_iff.mp hq]
    · simp [hq]

/-- C8 witness: the fidelity equalities hold at a concrete candidate carrying
a JSON body. -/
theorem c8_body_verbatim_witness :
    ∃ ob : OptBody, (reduceRequest loadsNone rbody8).body = some ob
      ∧ ob.mime_type = body8.mime_type
      ∧ ob.format = body8.format
      ∧ ob.text = body8.text
      ∧ ob.parsed_json = body8.parsed_json
      ∧ ob.params.getD [] = body8.params
      ∧ (reduceRequest loadsNone rbody8).method = rbody8.method
      ∧ (reduceRequest loadsNone rbody8).url = rbody8.url
      ∧ (reduceRequest loadsNone rbody8).response_status = rbody8.response_status
      ∧ (reduceRequest loadsNone rbody8).response_content_type
          = rbody8.response_content_type
      ∧ (reduceRequest loadsNone rbody8).query_params.getD []
          = rbody8.query_params :=
  c8_body_verbatim loadsNone rbody8 body8 rfl

/-- C9 confirmed: with fewer than 5 candidates the Relevance Gate returns true
for every query string, without consulting the external reasoning boundary
(second component false). -/
theorem c9_gate_small_list (api_requests : List ApiRequest)
    (description : String) (llm : ReasonOutcome)
    (h : api_requests.length < 5) :
    verify_har_relevance api_requests description llm = (true, false) := by
  unfold verify_har_relevance
  rw [if_pos h]

/-- C9 witness: the gate returns true without consulting the boundary on the
empty list and the empty query. -/
theorem c9_gate_small_list_witness :
    verify_har_relevance [] "" .failure = (true, false) :=
  c9_gate_small_list [] "" .failure (by decide)

/-- C10 counterexample: the query "weather in " contains "weather" and the
budgeted list holds a candidate whose URL contains the indicator "forecast",
yet the Selector does not return at all: the location extraction crashes with
an uncaught IndexError (the text after " in " strips to the empty string), so
no (candidate, confidence) pair with confidence in {0.95, 0.3, 0.7} is
produced. -/
theorem c10_weather_shortcut_counterexample :
    strContains "weather in " "weather" = true
    ∧ (optimize_for_tokens loads0 [wreq]).any
        (fun r => weatherIndicators.any
          (fun ind => strContains (lowerStr (r.url.getD "")) ind)) = true
    ∧ identify_api_request_with_confidence loads0 [wreq] "weather in " .failure
        = .error .indexError :=
  ⟨rfl, rfl, rfl⟩

/-- C10 amended: for every query containing "weather" whose location
extraction does not crash, and every candidate list whose budgeted form holds
a candidate with a weather-indicator URL, the Selector's result is independent
of the reasoning boundary (which is never consulted): it returns a budgeted
candidate with confidence exactly 0.95, 0.3 or 0.7, as a function of the
candidate list and query alone. -/
theorem c10_weather_shortcut_amended (loads : String → Option Json)
    (api_requests : List ApiRequest) (desc : String) (loc : Option String)
    (h1 : strContains desc "weather" = true)
    (h2 : extract_location (lowerStr desc) = .ok loc)
    (h3 : (optimize_for_tokens loads api_requests).any
      (fun r => weatherIndicators.any
        (fun ind => strContains (lowerStr (r.url.getD "")) ind)) = true) :
    ∃ r c, (c = mkRat 95 100 ∨ c = mkRat 3 10 ∨ c = mkRat 7 10)
      ∧ ∀ llm, identify_api_request_with_confidence loads api_requests desc llm
          = .ok (.fromList r, c) := by
  have hw : strContains (lowerStr desc) "weather" = true :=
    strContains_lower desc "weather" (by decide) h1
  have hscan : weatherScan loc (optimize_for_tokens loads api_requests) ≠ [] := by
    intro hnil
    rcases List.any_eq_true.mp h3 with ⟨r, hrmem, hr⟩
    unfold weatherScan at hnil
    have hf := List.filterMap_eq_nil_iff.mp hnil r hrmem
    simp only [hr, Bool.true_or, if_true] at hf
    exact Option.some_ne_none _ hf
  obtain ⟨w, ws, hws⟩ : ∃ w ws,
      weatherScan loc (optimize_for_tokens loads api_requests) = w :: ws := by
    cases hcase : weatherScan loc (optimize_for_tokens loads api_requests) with
    | nil => exact absurd hcase hscan
    | cons a b => exact ⟨a, b, rfl⟩
  have hsel : ∀ llm,
      identify_api_request_with_confidence loads api_requests desc llm
        = (match loc with
          | some _ =>
            match (w :: ws).filter (fun a => a.location_match) with
            | e :: _ => Except.ok (Selected.fromList e.request, mkRat 95 100)
            | [] =>
              match (w :: ws).filter (fun a => a.has_location_data) with
              | a :: _ => Except.ok (Selected.fromList a.request, mkRat 3 10)
              | [] => Except.ok (Selected.fromList w.request, mkRat 7 10)
          | none => Except.ok (Selected.fromList w.request, mkRat 7 10)) := by
    intro llm
    simp only [identify_api_request_with_confidence, hw, if_true, h2, hws]
    cases loc <;> rfl
  cases loc with
  | none =>
    exact ⟨w.request, mkRat 7 10, Or.inr (Or.inr rfl),
      fun llm => by rw [hsel llm]⟩
  | some lq =>
    cases hfm : (w :: ws).filter (fun a => a.location_match) with
    | cons e es =>
      exact ⟨e.request, mkRat 95 100, Or.inl rfl,
        fun llm => by rw [hsel llm, hfm]⟩
    | nil =>
      cases hfl : (w :: ws).filter (fun a => a.has_location_data) with
      | cons a as =>
        exact ⟨a.request, mkRat 3 10, Or.inr (Or.inl rfl),
          fun llm => by rw [hsel llm, hfm, hfl]⟩
      | nil =>
        exact ⟨w.request, mkRat 7 10, Or.inr (Or.inr rfl),
          fun llm => by rw [hsel llm, hfm, hfl]⟩

/-- C10 witness: the amended shortcut holds at the query "weather" and a
one-candidate list with a forecast URL. -/
theorem c10_weather_shortcut_witness :
    ∃ r c, (c = mkRat 95 100 ∨ c = mkRat 3 10 ∨ c = mkRat 7 10)
      ∧ ∀ llm, identify_api_request_with_confidence loadsNone [wreq] "weather" llm
          = .ok (.fromList r, c) :=
  c10_weather_shortcut_amended loadsNone [wreq] "weather" none rfl rfl rfl
